import Mathlib

/-!
# Verification of the Ebo real-time audio/video session bridge

Shallow embedding of the core bridge subsystem of the Ebo client
(`src/components/EboLens.tsx` and `src/components/LiveMode.tsx`):

* the capture-side 16-bit PCM conversion (`createBlob` / `createAudioBlob`)
  together with the base64 wire encoding (`encode` / `encodeBase64`,
  modelling the browser's `btoa`);
* the playback-side decoding (`decodeAudioData`, modelling `atob`,
  `Int16Array` reinterpretation and the `/ 32768` conversion);
* the playback scheduler (the `nextStartTimeRef` cursor update in the
  `onmessage` audio branch of both components);
* tool-call dispatch (the `msg.toolCall` loop of both components) and the
  overlay / recording state it mutates;
* the teardown flag logic (`isActive` in `EboLens`, `mountedRef` in
  `LiveMode`) and the per-frame volume signal.

Audio samples, device times and durations are modelled as rationals;
JavaScript's float-to-`Int16Array` store (truncation toward zero followed by
wrap-around modulo 2^16) is modelled explicitly by `ratTrunc` and `wrap16`.
-/

/-! ## JavaScript numeric conversions -/

/-- Truncation toward zero, the rounding JavaScript applies when a number is
stored into an `Int16Array` element (`ToIntegerOrInfinity`). -/
def ratTrunc (q : ℚ) : ℤ := if 0 ≤ q then ⌊q⌋ else ⌈q⌉

/-- Wrap an integer into the signed 16-bit range, the `ToInt16` step of a
JavaScript `Int16Array` store: reduce modulo 2^16, then interpret values
at or above 2^15 as negative. -/
def wrap16 (n : ℤ) : ℤ := if n % 65536 ≥ 32768 then n % 65536 - 65536 else n % 65536

/-- The value actually stored by `int16[i] = data[i] * 32768` in
`createBlob` (`EboLens.tsx`) and `createAudioBlob` (`LiveMode.tsx`). -/
def floatToInt16 (x : ℚ) : ℤ := wrap16 (ratTrunc (x * 32768))

/-- Little-endian byte pair of a signed 16-bit value, as laid out in the
`Int16Array`'s backing `ArrayBuffer` read through `new Uint8Array`. -/
def int16ToBytes (v : ℤ) : List ℕ := [(v % 65536).toNat % 256, (v % 65536).toNat / 256]

/-- Recover the signed 16-bit value from its little-endian byte pair, as the
playback side's `new Int16Array(bytes.buffer)` does. -/
def int16OfBytes (lo hi : ℕ) : ℤ :=
  if lo + 256 * hi ≥ 32768 then (lo + 256 * hi : ℤ) - 65536 else (lo + 256 * hi : ℤ)

/-! ## Base64 (the browser's `btoa` / `atob`)

`encode` in `EboLens.tsx` (and `encodeBase64` in `LiveMode.tsx`) turns the
byte sequence into a binary string and calls `btoa`; the playback side calls
`atob`.  We model the standard base64 alphabet with `=` padding.  `atob`
throws on malformed input; that is modelled by `Option`. -/

def b64Alphabet : List Char :=
  "ABCDEFGHIJKLMNOPQRSTUVWXYZabcdefghijklmnopqrstuvwxyz0123456789+/".toList

def b64Char (n : ℕ) : Char := b64Alphabet.getD n 'A'

def decodeB64Char (c : Char) : Option ℕ := b64Alphabet.findIdx? (· = c)

/-- Base64 encoding of a byte list (the `btoa` call applied to the binary
string built by `encode` / `encodeBase64`). -/
def encode : List ℕ → List Char
  | [] => []
  | [a] => [b64Char (a / 4), b64Char (a % 4 * 16), '=', '=']
  | [a, b] => [b64Char (a / 4), b64Char (a % 4 * 16 + b / 16), b64Char (b % 16 * 4), '=']
  | a :: b :: c :: rest =>
      b64Char (a / 4) :: b64Char (a % 4 * 16 + b / 16) ::
      b64Char (b % 16 * 4 + c / 64) :: b64Char (c % 64) :: encode rest

/-- Base64 decoding of a padded base64 string (the `atob` call on the
playback side); `none` models the `InvalidCharacterError` thrown on
malformed input. -/
def decodeB64 : List Char → Option (List ℕ)
  | [] => some []
  | c1 :: c2 :: c3 :: c4 :: rest => do
      let v1 ← decodeB64Char c1
      let v2 ← decodeB64Char c2
      if c3 = '=' then
        if c4 = '=' ∧ rest = [] then some [v1 * 4 + v2 / 16] else none
      else do
        let v3 ← decodeB64Char c3
        if c4 = '=' then
          if rest = [] then some [v1 * 4 + v2 / 16, v2 % 16 * 16 + v3 / 4] else none
        else do
          let v4 ← decodeB64Char c4
          let tail ← decodeB64 rest
          some ((v1 * 4 + v2 / 16) :: (v2 % 16 * 16 + v3 / 4) :: (v3 % 4 * 64 + v4) :: tail)
  | _ => none

/-! ## The capture pipeline (`createBlob` / `createAudioBlob`, `onaudioprocess`) -/

/-- An outbound media packet: base64 payload plus mime tag, as passed to
`session.sendRealtimeInput({ media: ... })`. -/
structure MediaBlob where
  data : List Char
  mimeType : String
  deriving DecidableEq

/-- The pre-base64 byte payload built by `createBlob`: each float sample is
stored into an `Int16Array` and the backing buffer is read as bytes,
little-endian. -/
def createBlobBytes (data : List ℚ) : List ℕ :=
  (data.map (fun x => int16ToBytes (floatToInt16 x))).flatten

/-- `createBlob` from `EboLens.tsx`: 16-bit PCM conversion, byte packing,
base64 encoding, tagged `audio/pcm;rate=16000`. -/
def createBlob (data : List ℚ) : MediaBlob :=
  { data := encode (createBlobBytes data), mimeType := "audio/pcm;rate=16000" }

/-- `createAudioBlob` from `LiveMode.tsx`; the same conversion as
`createBlob`. -/
def createAudioBlob (data : List ℚ) : MediaBlob :=
  { data := encode ((data.map (fun x => int16ToBytes (floatToInt16 x))).flatten),
    mimeType := "audio/pcm;rate=16000" }

/-- The capture pipeline: `processor.onaudioprocess` emits exactly one
encoded packet per captured frame, in frame order. -/
def capturePipeline (frames : List (List ℚ)) : List MediaBlob :=
  frames.map createBlob

/-! ## The playback decode path (`decodeAudioData`) -/

/-- Reinterpret a byte list as 16-bit signed integers, little-endian, as
`new Int16Array(bytes.buffer)` does; `none` models the `RangeError` thrown
when the byte count is odd. -/
def bytesToInt16List : List ℕ → Option (List ℤ)
  | [] => some []
  | [_] => none
  | lo :: hi :: rest => do
      let tail ← bytesToInt16List rest
      some (int16OfBytes lo hi :: tail)

/-- `decodeAudioData` from both components: base64-decode, reinterpret as
`Int16Array`, convert each value to float by dividing by 32768.  `none`
models a thrown decode error. -/
def decodeAudioData (base64 : List Char) : Option (List ℚ) := do
  let bytes ← decodeB64 base64
  let ints ← bytesToInt16List bytes
  some (ints.map (fun i : ℤ => (i : ℚ) / 32768))

/-! ## The playback scheduler (`nextStartTimeRef` in the `onmessage` audio branch)

Both components run the identical cursor update on receipt of an audio
fragment (`EboLens.tsx` lines 122-134, `LiveMode.tsx` lines 234-244):

* `nextStartTime := max nextStartTime ctx.currentTime`
* `source.start nextStartTime`
* `nextStartTime := nextStartTime + buffer.duration`

`runScheduler` folds this step over a sequence of fragments given as
(arrival device time, buffer duration) pairs and returns the scheduled
start times in order. -/

/-- The scheduled start times for fragments arriving in order, each given as
(device time at processing, buffer duration). -/
def runScheduler (cursor : ℚ) : List (ℚ × ℚ) → List ℚ
  | [] => []
  | (t, d) :: rest => max cursor t :: runScheduler (max cursor t + d) rest

/-- Arrival discipline under which playback is gapless: every fragment is
processed while the cursor is still at or ahead of the device clock. -/
def keepsUp (cursor : ℚ) : List (ℚ × ℚ) → Bool
  | [] => true
  | (t, d) :: rest => decide (t ≤ cursor) && keepsUp (max cursor t + d) rest

/-- One execution of the `onmessage` audio branch: decode, compute start
time, schedule, advance the cursor.  A decode failure (`none`) leaves the
cursor untouched and schedules nothing, since the thrown error aborts the
branch before the cursor is read or written.  The scheduled buffer duration
is `sampleCount / 24000` (`ctx.createBuffer(1, dataInt16.length, 24000)`). -/
def onAudioMessage (cursor : ℚ) (now : ℚ) (payload : List Char) : ℚ × Option (ℚ × ℚ) :=
  match decodeAudioData payload with
  | none => (cursor, none)
  | some samples =>
      let dur : ℚ := samples.length / 24000
      let start := max cursor now
      (start + dur, some (start, dur))

/-- Process a sequence of inbound audio events, each given as (device time
at processing, base64 payload); returns the final cursor and the scheduled
(start, duration) pairs in order. -/
def runAudioMessages (cursor : ℚ) : List (ℚ × List Char) → ℚ × List (ℚ × ℚ)
  | [] => (cursor, [])
  | (now, payload) :: rest =>
      let r := onAudioMessage cursor now payload
      let rr := runAudioMessages r.1 rest
      (rr.1, r.2.toList ++ rr.2)

/-! ## Tool dispatch (`msg.toolCall` loop)

`LiveMode.tsx` lines 193-232: four recognized tools mutate the overlay
state; every call, recognized or not, is acknowledged with
`{ status: "ok" }` carrying the call's `id` and `name`. -/

/-- The argument mapping of a tool call; every field the dispatchers read.
JavaScript `undefined` is `none`. -/
structure ToolCallArgs where
  destination : Option String := none
  estimatedDistance : Option String := none
  direction : Option String := none
  prompt : Option String := none
  task : Option String := none
  duration : Option ℚ := none
  deriving DecidableEq

/-- A pending tool call received from the session. -/
structure FunctionCall where
  id : String
  name : String
  args : ToolCallArgs
  deriving DecidableEq

/-- The acknowledgment sent back for one call (`{id, name, response}`);
`response` is the JSON payload, always `{ status: "ok" }` in `LiveMode`. -/
structure FunctionResponse where
  id : String
  name : String
  response : String
  deriving DecidableEq

/-- JavaScript `v || dflt` on an optional string: `undefined` and the empty
string are falsy. -/
def jsOrString (v : Option String) (dflt : String) : String :=
  match v with
  | none => dflt
  | some s => if s = "" then dflt else s

/-- JavaScript template interpolation of a possibly-undefined string:
`undefined` renders as the text `undefined`. -/
def jsTemplateString (v : Option String) : String :=
  match v with
  | none => "undefined"
  | some s => s

/-- JavaScript `v || dflt` on an optional number: `undefined` and `0` are
falsy. -/
def jsOrNum (v : Option ℚ) (dflt : ℚ) : ℚ :=
  match v with
  | none => dflt
  | some x => if x = 0 then dflt else x

/-- The navigation overlay record set by `startNavigation`
(`NavigationData` in `src/types.ts`; `direction` kept as a string since the
dispatcher casts the raw argument). -/
structure NavigationData where
  isActive : Bool
  destination : Option String
  direction : String
  distance : String
  eta : String
  deriving DecidableEq

/-- The three overlay states of `LiveMode`: `navData`, `generatedImage`,
`isAnalyzing`. -/
structure LiveOverlayState where
  navData : Option NavigationData
  generatedImage : Option String
  isAnalyzing : Bool
  deriving DecidableEq

/-- One iteration of the `LiveMode` tool-call loop: the overlay mutation for
the four recognized names (any other name leaves the state unchanged), and
the unconditional `{ id, name, response: { status: "ok" } }` acknowledgment. -/
def handleToolCall (st : LiveOverlayState) (fc : FunctionCall) : LiveOverlayState × FunctionResponse :=
  let st' :=
    if fc.name = "startNavigation" then
      { navData := some { isActive := true, destination := fc.args.destination,
                          direction := jsOrString fc.args.direction "STRAIGHT",
                          distance := jsOrString fc.args.estimatedDistance "...",
                          eta := "5 min" },
        generatedImage := none, isAnalyzing := false }
    else if fc.name = "analyzeSurroundings" then
      { st with isAnalyzing := true, navData := none }
    else if fc.name = "generateHologram" then
      { navData := none, isAnalyzing := false,
        generatedImage :=
          some ("https://source.unsplash.com/random/800x800/?futuristic," ++
                jsTemplateString fc.args.prompt) }
    else if fc.name = "stopSystem" then
      { navData := none, generatedImage := none, isAnalyzing := false }
    else st
  (st', { id := fc.id, name := fc.name, response := "ok" })

/-- The whole `msg.toolCall` loop of `LiveMode`: handle each call in order,
collect one acknowledgment per call into the single outgoing batch. -/
def processToolCallBatch (st : LiveOverlayState) : List FunctionCall → LiveOverlayState × List FunctionResponse
  | [] => (st, [])
  | fc :: rest =>
      let r := handleToolCall st fc
      let rr := processToolCallBatch r.1 rest
      (rr.1, r.2 :: rr.2)

/-! ## The `EboLens` variant: capture flag and clip recording -/

/-- The `EboLens` local state touched by its tool dispatcher: the
`isCapturing` and `isRecording` React state (live, current-render values),
stream availability (`streamRef`, a ref, hence always live), and the number
of `MediaRecorder` instances currently recording on the stream. -/
structure LensState where
  isCapturing : Bool
  isRecording : Bool
  hasStream : Bool
  activeRecorders : ℕ
  deriving DecidableEq

/-- The `EboLens` acknowledgment (`{ id, name, response: { ok: true } }`). -/
structure LensResponse where
  id : String
  name : String
  ok : Bool
  deriving DecidableEq

/-- `startRec` from `EboLens.tsx`.  Its guard reads the `isRecording` value
closed over by whichever render created this `startRec` instance
(`capturedIsRecording`) — not the live state — together with the live
`streamRef`.  When the guard passes, a new `MediaRecorder` is created and
started, the live `isRecording` state is set, and an auto-stop timer of
`sec` seconds is scheduled for the new recorder (the second component). -/
def startRec (capturedIsRecording : Bool) (st : LensState) (sec : ℚ) :
    LensState × Option ℚ :=
  if capturedIsRecording || !st.hasStream then (st, none)
  else ({ st with isRecording := true, activeRecorders := st.activeRecorders + 1 },
        some sec)

/-- The download filename produced in `recorder.onstop`
(`EBO_REC_<epoch-ms>.webm`, from `Date.now()`). -/
def stopFilename (now : ℕ) : String := "EBO_REC_" ++ toString now ++ ".webm"

/-- One recorder's auto-stop timer firing: the `recorder.state === 'recording'`
check on that recorder is passed as `stillRecording`; a still-running
recorder is stopped, and its `onstop` handler offers the clip for download
under the `EBO_REC` filename and clears the live `isRecording` state. -/
def recTimerFire (stillRecording : Bool) (st : LensState) (now : ℕ) :
    LensState × Option String :=
  if stillRecording then
    ({ st with isRecording := false, activeRecorders := st.activeRecorders - 1 },
     some (stopFilename now))
  else (st, none)

/-- One iteration of the `EboLens` tool-call loop (two independent `if`s on
the name, then the unconditional acknowledgment).  The `onmessage` closure
was created inside the once-run `useEffect`, so the `startRec` it invokes is
the first render's instance, whose captured `isRecording` is that render's
value `false` — the recording guard is inert on this dispatch path. -/
def handleLensToolCall (st : LensState) (fc : FunctionCall) : LensState × LensResponse :=
  let st1 := if fc.name = "capture_and_analyze" then { st with isCapturing := true } else st
  let st2 := if fc.name = "record_video_clip" then
    (startRec false st1 (jsOrNum fc.args.duration 10)).1 else st1
  (st2, { id := fc.id, name := fc.name, ok := true })

/-- The whole `msg.toolCall` loop of `EboLens`. -/
def processLensBatch (st : LensState) : List FunctionCall → LensState × List LensResponse
  | [] => (st, [])
  | fc :: rest =>
      let r := handleLensToolCall st fc
      let rr := processLensBatch r.1 rest
      (rr.1, r.2 :: rr.2)

/-! ## Volume signal and teardown -/

/-- Sum of squared samples of one microphone frame. -/
def sumSquares (frame : List ℚ) : ℚ := (frame.map fun x => x * x).sum

/-- The root-mean-square energy `Math.sqrt(sum / data.length)` of a frame. -/
noncomputable def rmsOf (frame : List ℚ) : ℝ :=
  Real.sqrt ((sumSquares frame : ℝ) / (frame.length : ℝ))

/-- The volume signal `setVolume(rms * 200)` of `EboLens.tsx`. -/
noncomputable def eboLensVolume (frame : List ℚ) : ℝ := rmsOf frame * 200

/-- The volume signal `setVolume(Math.sqrt(sum/len) * 100)` of
`LiveMode.tsx`. -/
noncomputable def liveModeVolume (frame : List ℚ) : ℝ := rmsOf frame * 100

/-- The resources torn down by the `useEffect` cleanup. -/
structure BridgeResources where
  isActive : Bool
  streamTracksLive : Bool
  inputCtxOpen : Bool
  outputCtxOpen : Bool
  deriving DecidableEq

/-- The `useEffect` cleanup of `EboLens.tsx`: clear the active flag, stop
all stream tracks, close both audio contexts.  It sends nothing on the
session handle. -/
def cleanup (_ : BridgeResources) : BridgeResources × List MediaBlob :=
  ({ isActive := false, streamTracksLive := false,
     inputCtxOpen := false, outputCtxOpen := false }, [])

/-- The `LiveMode.tsx` microphone-frame callback: the volume update is
guarded by `mountedRef.current`, but the encoded frame is handed to the
session send path unconditionally.  Returns (volume updated?, sends). -/
def liveModeOnAudioProcess (mounted : Bool) (frame : List ℚ) : Bool × List MediaBlob :=
  (mounted, [createAudioBlob frame])

/-- The `EboLens.tsx` microphone-frame callback: `if (!isActive) return;`
guards the whole body, so a frame arriving after teardown neither updates
the volume nor sends. -/
def eboLensOnAudioProcess (isActive : Bool) (frame : List ℚ) : Bool × List MediaBlob :=
  if isActive then (true, [createBlob frame]) else (false, [])

/-! ## Helper lemmas: base64 and 16-bit PCM -/

theorem decodeB64Char_b64Char : ∀ v : ℕ, v < 64 → decodeB64Char (b64Char v) = some v := by
  decide

theorem b64Char_ne_pad : ∀ v : ℕ, v < 64 → b64Char v ≠ '=' := by
  decide

theorem decodeB64_encode (bs : List ℕ) (h : ∀ b ∈ bs, b < 256) :
    decodeB64 (encode bs) = some bs := by
  induction bs using encode.induct with
  | case1 => rfl
  | case2 a =>
    have ha : a < 256 := h a (by simp)
    have h1 := decodeB64Char_b64Char (a / 4) (by omega)
    have h2 := decodeB64Char_b64Char (a % 4 * 16) (by omega)
    simp [encode, decodeB64, h1, h2]
    omega
  | case3 a b =>
    have ha : a < 256 := h a (by simp)
    have hb : b < 256 := h b (by simp)
    have h1 := decodeB64Char_b64Char (a / 4) (by omega)
    have h2 := decodeB64Char_b64Char (a % 4 * 16 + b / 16) (by omega)
    have h3 := decodeB64Char_b64Char (b % 16 * 4) (by omega)
    have hne : b64Char (b % 16 * 4) ≠ '=' := b64Char_ne_pad _ (by omega)
    simp [encode, decodeB64, h1, h2, h3, hne]
    omega
  | case4 a b c rest ih =>
    have ha : a < 256 := h a (by simp)
    have hb : b < 256 := h b (by simp)
    have hc : c < 256 := h c (by simp)
    have h1 := decodeB64Char_b64Char (a / 4) (by omega)
    have h2 := decodeB64Char_b64Char (a % 4 * 16 + b / 16) (by omega)
    have h3 := decodeB64Char_b64Char (b % 16 * 4 + c / 64) (by omega)
    have h4 := decodeB64Char_b64Char (c % 64) (by omega)
    have hne3 : b64Char (b % 16 * 4 + c / 64) ≠ '=' := b64Char_ne_pad _ (by omega)
    have hne4 : b64Char (c % 64) ≠ '=' := b64Char_ne_pad _ (by omega)
    have ih' := ih (fun x hx => h x (by simp [hx]))
    simp [encode, decodeB64, h1, h2, h3, h4, hne3, hne4, ih']
    omega

theorem wrap16_eq_of_range (v : ℤ) (h1 : -32768 ≤ v) (h2 : v < 32768) : wrap16 v = v := by
  simp only [wrap16]
  split <;> omega

theorem wrap16_range (n : ℤ) : -32768 ≤ wrap16 n ∧ wrap16 n < 32768 := by
  simp only [wrap16]
  split <;> omega

theorem int16OfBytes_int16ToBytes (v : ℤ) (h1 : -32768 ≤ v) (h2 : v < 32768) :
    int16OfBytes ((v % 65536).toNat % 256) ((v % 65536).toNat / 256) = v := by
  simp only [int16OfBytes]
  split <;> omega

theorem int16ToBytes_bytes_lt (v : ℤ) : ∀ b ∈ int16ToBytes v, b < 256 := by
  intro b hb
  simp [int16ToBytes] at hb
  have h0 : 0 ≤ v % 65536 := Int.emod_nonneg v (by norm_num)
  have h1 : v % 65536 < 65536 := Int.emod_lt_of_pos v (by norm_num)
  rcases hb with rfl | rfl <;> omega

theorem ratTrunc_err (q : ℚ) : |q - ratTrunc q| < 1 := by
  simp only [ratTrunc]
  split
  · have h1 := Int.floor_le q
    have h2 := Int.lt_floor_add_one q
    rw [abs_lt]
    constructor <;> linarith
  · have h1 := Int.le_ceil q
    have h2 := Int.ceil_lt_add_one q
    rw [abs_lt]
    constructor <;> linarith

theorem ratTrunc_bounds (x : ℚ) (h1 : -1 ≤ x) (h2 : x < 1) :
    -32768 ≤ ratTrunc (x * 32768) ∧ ratTrunc (x * 32768) < 32768 := by
  have hlo : (-32768 : ℚ) ≤ x * 32768 := by linarith
  have hhi : x * 32768 < 32768 := by linarith
  simp only [ratTrunc]
  split
  · constructor
    · have := Int.floor_nonneg.mpr (by assumption : (0 : ℚ) ≤ x * 32768)
      omega
    · exact Int.floor_lt.mpr (by exact_mod_cast hhi)
  · constructor
    · have h := Int.le_ceil (x * 32768)
      have hq : ((-32768 : ℤ) : ℚ) ≤ ((⌈x * 32768⌉ : ℤ) : ℚ) := by
        push_cast
        linarith
      exact_mod_cast hq
    · rename_i hneg
      push_neg at hneg
      have : ⌈x * 32768⌉ ≤ 0 := Int.ceil_le.mpr (by exact_mod_cast le_of_lt hneg)
      omega

theorem floatToInt16_eq (x : ℚ) (h1 : -1 ≤ x) (h2 : x < 1) :
    floatToInt16 x = ratTrunc (x * 32768) := by
  obtain ⟨ha, hb⟩ := ratTrunc_bounds x h1 h2
  simp only [floatToInt16]
  exact wrap16_eq_of_range _ ha hb

theorem quantization_err (x : ℚ) : |x - (ratTrunc (x * 32768) : ℚ) / 32768| ≤ 1 / 32768 := by
  have h := ratTrunc_err (x * 32768)
  rw [abs_lt] at h
  rw [abs_le]
  constructor <;> [linarith; linarith]

theorem ratTrunc_one_mul : ratTrunc ((1 : ℚ) * 32768) = 32768 := by
  rw [show ((1 : ℚ) * 32768) = ((32768 : ℤ) : ℚ) by norm_num]
  simp only [ratTrunc]
  rw [if_pos (by norm_num)]
  exact_mod_cast Int.floor_intCast (32768 : ℤ)

theorem floatToInt16_one : floatToInt16 (1 : ℚ) = -32768 := by
  simp only [floatToInt16, ratTrunc_one_mul]
  decide

theorem bytesToInt16List_flatten (vs : List ℤ) (h : ∀ v ∈ vs, -32768 ≤ v ∧ v < 32768) :
    bytesToInt16List ((vs.map int16ToBytes).flatten) = some vs := by
  induction vs with
  | nil => rfl
  | cons v rest ih =>
    obtain ⟨h1v, h2v⟩ := h v (by simp)
    have ih' := ih (fun x hx => h x (by simp [hx]))
    simp only [List.map_cons, List.flatten_cons, int16ToBytes, List.cons_append, List.nil_append]
    simp [bytesToInt16List, ih', int16OfBytes_int16ToBytes v h1v h2v]

theorem createBlobBytes_lt (data : List ℚ) : ∀ b ∈ createBlobBytes data, b < 256 := by
  intro b hb
  simp only [createBlobBytes, List.mem_flatten, List.mem_map] at hb
  obtain ⟨l, ⟨x, _, rfl⟩, hbl⟩ := hb
  exact int16ToBytes_bytes_lt _ _ hbl

theorem createBlobBytes_length (data : List ℚ) :
    (createBlobBytes data).length = 2 * data.length := by
  induction data with
  | nil => rfl
  | cons a l ih =>
    have hstep : createBlobBytes (a :: l) = int16ToBytes (floatToInt16 a) ++ createBlobBytes l := by
      simp [createBlobBytes]
    rw [hstep, List.length_append, ih]
    simp [int16ToBytes]
    omega

theorem forall₂_self_map {α β : Type} (f : α → β) (P : α → β → Prop) (l : List α)
    (h : ∀ x ∈ l, P x (f x)) : List.Forall₂ P l (l.map f) := by
  induction l with
  | nil => exact List.Forall₂.nil
  | cons a l ih =>
    exact List.Forall₂.cons (h a (by simp)) (ih (fun x hx => h x (by simp [hx])))

theorem decodeAudioData_createBlob (samples : List ℚ) (h : ∀ x ∈ samples, -1 ≤ x ∧ x < 1) :
    decodeAudioData (createBlob samples).data =
      some (samples.map fun x => ((ratTrunc (x * 32768) : ℤ) : ℚ) / 32768) := by
  have h1 : decodeB64 (createBlob samples).data = some (createBlobBytes samples) :=
    decodeB64_encode _ (createBlobBytes_lt samples)
  have hrange : ∀ v ∈ samples.map floatToInt16, -32768 ≤ v ∧ v < 32768 := by
    intro v hv
    simp only [List.mem_map] at hv
    obtain ⟨x, _, rfl⟩ := hv
    exact wrap16_range _
  have h2 : bytesToInt16List (createBlobBytes samples) = some (samples.map floatToInt16) := by
    have hh := bytesToInt16List_flatten (samples.map floatToInt16) hrange
    simpa [createBlobBytes, List.map_map] using hh
  have h3 : decodeAudioData (createBlob samples).data =
      some ((samples.map floatToInt16).map fun i : ℤ => (i : ℚ) / 32768) := by
    simp [decodeAudioData, h1, h2]
  rw [h3, List.map_map]
  refine congrArg some (List.map_congr_left ?_)
  intro x hx
  obtain ⟨hx1, hx2⟩ := h x hx
  simp [Function.comp, floatToInt16_eq x hx1 hx2]

/-! ## Helper lemmas: playback scheduler -/

theorem runScheduler_length (c : ℚ) (frags : List (ℚ × ℚ)) :
    (runScheduler c frags).length = frags.length := by
  induction frags generalizing c with
  | nil => rfl
  | cons p rest ih =>
    obtain ⟨t, d⟩ := p
    simp [runScheduler, ih]

theorem runScheduler_no_overlap (c : ℚ) (frags : List (ℚ × ℚ))
    (hd : ∀ p ∈ frags, 0 ≤ p.2) :
    ∀ i, i + 1 < frags.length →
      (runScheduler c frags).getD i 0 + (frags.getD i (0, 0)).2 ≤
        (runScheduler c frags).getD (i + 1) 0 := by
  induction frags generalizing c with
  | nil => intro i hi; simp at hi
  | cons p rest ih =>
    intro i hi
    obtain ⟨t, d⟩ := p
    match i with
    | 0 =>
      cases rest with
      | nil => simp at hi
      | cons q rest2 =>
        obtain ⟨t2, d2⟩ := q
        simp [runScheduler]
    | Nat.succ j =>
      simp only [runScheduler, List.getD_cons_succ, List.length_cons] at *
      exact ih (max c t + d) (fun q hq => hd q (by simp [hq])) j (by omega)

theorem runScheduler_gapless (c : ℚ) (frags : List (ℚ × ℚ))
    (hk : keepsUp c frags = true) :
    ∀ i, i + 1 < frags.length →
      (runScheduler c frags).getD (i + 1) 0 =
        (runScheduler c frags).getD i 0 + (frags.getD i (0, 0)).2 := by
  induction frags generalizing c with
  | nil => intro i hi; simp at hi
  | cons p rest ih =>
    intro i hi
    obtain ⟨t, d⟩ := p
    simp only [keepsUp, Bool.and_eq_true, decide_eq_true_eq] at hk
    have hmax : max c t = c := max_eq_left hk.1
    match i with
    | 0 =>
      cases rest with
      | nil => simp at hi
      | cons q rest2 =>
        obtain ⟨t2, d2⟩ := q
        simp only [keepsUp, Bool.and_eq_true, decide_eq_true_eq] at hk
        have ht2 : t2 ≤ c + d := hmax ▸ hk.2.1
        simp [runScheduler, hmax, max_eq_left ht2]
    | Nat.succ j =>
      simp only [runScheduler, List.getD_cons_succ, List.length_cons] at *
      exact ih (max c t + d) hk.2 j (by omega)

theorem runScheduler_mono (c : ℚ) (frags : List (ℚ × ℚ))
    (hd : ∀ p ∈ frags, 0 ≤ p.2) :
    ∀ i, i + 1 < frags.length →
      (runScheduler c frags).getD i 0 ≤ (runScheduler c frags).getD (i + 1) 0 := by
  intro i hi
  have h1 := runScheduler_no_overlap c frags hd i hi
  have h2 : 0 ≤ (frags.getD i (0, 0)).2 := by
    rw [List.getD_eq_getElem frags (0, 0) (show i < frags.length by omega)]
    exact hd _ (List.getElem_mem _)
  linarith

/-! ## Helper lemmas: tool dispatch and audio message processing -/

theorem processToolCallBatch_acks (st : LiveOverlayState) (fcs : List FunctionCall) :
    List.Forall₂ (fun fc r => r.id = fc.id ∧ r.name = fc.name ∧ r.response = "ok")
      fcs (processToolCallBatch st fcs).2 := by
  induction fcs generalizing st with
  | nil => exact List.Forall₂.nil
  | cons fc rest ih =>
    exact List.Forall₂.cons ⟨rfl, rfl, rfl⟩ (ih (handleToolCall st fc).1)

theorem processLensBatch_acks (st : LensState) (fcs : List FunctionCall) :
    List.Forall₂ (fun fc r => r.id = fc.id ∧ r.name = fc.name ∧ r.ok = true)
      fcs (processLensBatch st fcs).2 := by
  induction fcs generalizing st with
  | nil => exact List.Forall₂.nil
  | cons fc rest ih =>
    exact List.Forall₂.cons ⟨rfl, rfl, rfl⟩ (ih (handleLensToolCall st fc).1)

theorem runAudioMessages_skip (c : ℚ) (bad : List Char)
    (hbad : decodeAudioData bad = none)
    (pre post : List (ℚ × List Char)) (tbad : ℚ) :
    runAudioMessages c (pre ++ (tbad, bad) :: post) = runAudioMessages c (pre ++ post) := by
  induction pre generalizing c with
  | nil => simp [runAudioMessages, onAudioMessage, hbad]
  | cons e rest ih =>
    obtain ⟨t, p⟩ := e
    simp only [List.cons_append, runAudioMessages, List.append_eq]
    rw [ih]

/-! ## Helper lemmas: volume signal -/

theorem sumSquares_nonneg (frame : List ℚ) : 0 ≤ sumSquares frame := by
  apply List.sum_nonneg
  intro y hy
  simp only [List.mem_map] at hy
  obtain ⟨x, _, rfl⟩ := hy
  exact mul_self_nonneg x

theorem sumSquares_le_length (frame : List ℚ) (hb : ∀ x ∈ frame, -1 ≤ x ∧ x ≤ 1) :
    sumSquares frame ≤ frame.length := by
  induction frame with
  | nil => simp [sumSquares]
  | cons a l ih =>
    obtain ⟨h1, h2⟩ := hb a (by simp)
    have ha : a * a ≤ 1 := by nlinarith
    have ihl := ih (fun x hx => hb x (by simp [hx]))
    simp only [sumSquares, List.map_cons, List.sum_cons, List.length_cons] at *
    push_cast
    linarith

theorem rmsOf_nonneg (frame : List ℚ) : 0 ≤ rmsOf frame :=
  Real.sqrt_nonneg _

theorem rmsOf_le_one (frame : List ℚ) (hne : frame ≠ [])
    (hb : ∀ x ∈ frame, -1 ≤ x ∧ x ≤ 1) : rmsOf frame ≤ 1 := by
  rw [rmsOf]
  apply Real.sqrt_le_one.mpr
  have hlen : (0 : ℝ) < (frame.length : ℝ) := by
    exact_mod_cast List.length_pos.mpr hne
  rw [div_le_one hlen]
  exact_mod_cast sumSquares_le_length frame hb

/-! ## Claims -/

/-- C1 counterexample: a fragment arriving after the previously scheduled
audio has drained (device time 5, cursor 1) starts at the device time, not at
the prior start plus the prior duration — so the unconditional gapless
equality of the claim fails. -/
theorem scheduler_gap_on_late_arrival :
    runScheduler 0 [((0 : ℚ), 1), (5, 1)] = [0, 5] ∧
    (runScheduler 0 [((0 : ℚ), 1), (5, 1)]).getD 1 0 ≠
      (runScheduler 0 [((0 : ℚ), 1), (5, 1)]).getD 0 0 +
        (([((0 : ℚ), 1), (5, 1)].getD 0 (0, 0)).2) := by
  have h : runScheduler 0 [((0 : ℚ), 1), (5, 1)] = [0, 5] := by
    simp [runScheduler]
  refine ⟨h, ?_⟩
  rw [h]
  simp

/-- C1 (amended): each scheduled start time is `max cursor deviceTime` and the
cursor then advances to start plus duration (conjunct 2, definitional); hence
for any arrival timing the start times are non-decreasing and never overlap
(next start at least prior start plus prior duration, conjuncts 3-4); the
starts are exactly gapless (equality) when every fragment is processed while
the device clock is at or behind the cursor (conjunct 5).  The original
claim's unconditional gapless equality fails for late arrivals
(`scheduler_gap_on_late_arrival`). -/
theorem scheduler_start_times (c : ℚ) (frags : List (ℚ × ℚ))
    (hd : ∀ p ∈ frags, 0 ≤ p.2) :
    (runScheduler c frags).length = frags.length ∧
    (∀ t d rest, runScheduler c ((t, d) :: rest) =
      max c t :: runScheduler (max c t + d) rest) ∧
    (∀ i, i + 1 < frags.length →
      (runScheduler c frags).getD i 0 ≤ (runScheduler c frags).getD (i + 1) 0) ∧
    (∀ i, i + 1 < frags.length →
      (runScheduler c frags).getD i 0 + (frags.getD i (0, 0)).2 ≤
        (runScheduler c frags).getD (i + 1) 0) ∧
    (keepsUp c frags = true → ∀ i, i + 1 < frags.length →
      (runScheduler c frags).getD (i + 1) 0 =
        (runScheduler c frags).getD i 0 + (frags.getD i (0, 0)).2) :=
  ⟨runScheduler_length c frags, fun _ _ _ => rfl, runScheduler_mono c frags hd,
   runScheduler_no_overlap c frags hd, fun hk => runScheduler_gapless c frags hk⟩

/-- Witness for `scheduler_start_times`: the spec's own example — durations
0.5, 0.3, 0.7 arriving promptly — is scheduled at starts 0, 0.5, 0.8. -/
theorem scheduler_start_times_witness :
    runScheduler 0 [((0 : ℚ), 1/2), (0, 3/10), (0, 7/10)] = [0, 1/2, 4/5] ∧
    keepsUp 0 [((0 : ℚ), 1/2), (0, 3/10), (0, 7/10)] = true ∧
    (runScheduler 0 [((0 : ℚ), 1/2), (0, 3/10), (0, 7/10)]).getD 1 0 =
      (runScheduler 0 [((0 : ℚ), 1/2), (0, 3/10), (0, 7/10)]).getD 0 0 + 1/2 := by
  have hd : ∀ p ∈ [((0 : ℚ), (1 : ℚ)/2), (0, 3/10), (0, 7/10)], 0 ≤ p.2 := by
    intro p hp
    simp at hp
    rcases hp with rfl | rfl | rfl <;> norm_num
  have hev : runScheduler 0 [((0 : ℚ), 1/2), (0, 3/10), (0, 7/10)] = [0, 1/2, 4/5] := by
    norm_num [runScheduler]
  have hk : keepsUp 0 [((0 : ℚ), 1/2), (0, 3/10), (0, 7/10)] = true := by
    norm_num [keepsUp]
  have happ := (scheduler_start_times 0 [((0 : ℚ), 1/2), (0, 3/10), (0, 7/10)] hd).2.2.2.2
    hk 0 (by norm_num)
  refine ⟨hev, hk, ?_⟩
  simpa using happ

/-- C2 counterexample: at sample exactly 1.0, `int16[i] = 1.0 * 32768` wraps
to -32768 in the `Int16Array`, so decoding yields -1 and the round-trip error
is 2, far beyond the quantization bound 1/32768. -/
theorem pcm_roundtrip_fails_at_one :
    decodeAudioData (createBlob [(1 : ℚ)]).data = some [-1] ∧
    ¬ |(1 : ℚ) - (-1)| ≤ 1 / 32768 := by
  have hbb : createBlobBytes [(1 : ℚ)] = [0, 128] := by
    have h1 : int16ToBytes (-32768) = [0, 128] := by decide
    simp [createBlobBytes, floatToInt16_one, h1]
  constructor
  · have h1 : decodeB64 (encode [0, 128]) = some [0, 128] :=
      decodeB64_encode _ (by decide)
    have h3 : createBlob [(1 : ℚ)] =
        { data := encode [0, 128], mimeType := "audio/pcm;rate=16000" } := by
      simp [createBlob, hbb]
    have h2 : bytesToInt16List [0, 128] = some [-32768] := by decide
    rw [h3]
    norm_num [decodeAudioData, h1, h2]
  · rw [show ((1 : ℚ) - (-1)) = 2 by norm_num,
       abs_of_nonneg (by norm_num : (0 : ℚ) ≤ 2)]
    norm_num

/-- C2 (amended): for every sample sequence with values in [-1, 1), the
16-bit PCM encode (multiply by 32768, store as Int16, pack little-endian,
base64) followed by the playback decode (base64, Int16 reinterpretation,
divide by 32768) recovers each sample within 1/32768; at exactly 1.0 the
Int16 store wraps and the bound fails (`pcm_roundtrip_fails_at_one`). -/
theorem pcm_roundtrip_within_quantization (samples : List ℚ)
    (h : ∀ x ∈ samples, -1 ≤ x ∧ x < 1) :
    ∃ out, decodeAudioData (createBlob samples).data = some out ∧
      out.length = samples.length ∧
      List.Forall₂ (fun x y => |x - y| ≤ 1 / 32768) samples out := by
  refine ⟨_, decodeAudioData_createBlob samples h, by simp, ?_⟩
  exact forall₂_self_map _ _ _ (fun x _ => quantization_err x)

/-- Witness for `pcm_roundtrip_within_quantization` at the sample 1/2. -/
theorem pcm_roundtrip_witness :
    (∀ x ∈ [(1 : ℚ)/2], -1 ≤ x ∧ x < 1) ∧
    ∃ out, decodeAudioData (createBlob [(1 : ℚ)/2]).data = some out ∧
      out.length = 1 ∧
      List.Forall₂ (fun x y => |x - y| ≤ 1 / 32768) [(1 : ℚ)/2] out := by
  have hs : ∀ x ∈ [(1 : ℚ)/2], -1 ≤ x ∧ x < 1 := by
    intro x hx
    rw [List.mem_singleton] at hx
    subst hx
    norm_num
  obtain ⟨out, h1, h2, h3⟩ := pcm_roundtrip_within_quantization [(1 : ℚ)/2] hs
  exact ⟨hs, out, h1, by simpa using h2, h3⟩

/-- C3: for every batch of K received tool calls — duplicate and unrecognized
names included — both dispatchers produce exactly K acknowledgments in one
outgoing batch, in received order, each carrying the corresponding call's
identifier, and every acknowledgment is the unconditional ok payload. -/
theorem tool_dispatch_ack_batch (st : LiveOverlayState) (lst : LensState)
    (fcs : List FunctionCall) :
    List.Forall₂ (fun fc r => r.id = fc.id ∧ r.name = fc.name ∧ r.response = "ok")
      fcs (processToolCallBatch st fcs).2 ∧
    (processToolCallBatch st fcs).2.length = fcs.length ∧
    List.Forall₂ (fun fc r => r.id = fc.id ∧ r.name = fc.name ∧ r.ok = true)
      fcs (processLensBatch lst fcs).2 ∧
    (processLensBatch lst fcs).2.length = fcs.length :=
  ⟨processToolCallBatch_acks st fcs, (processToolCallBatch_acks st fcs).length_eq.symm,
   processLensBatch_acks lst fcs, (processLensBatch_acks lst fcs).length_eq.symm⟩

/-- C4 counterexample: executing analyze-surroundings after generate-hologram
leaves BOTH the analyzing flag and the generated image set — the
analyzeSurroundings branch clears the navigation overlay but never clears
`generatedImage`, so the three overlay states are not mutually exclusive. -/
theorem overlay_exclusion_violated :
    ((handleToolCall
        (handleToolCall ⟨none, none, false⟩
          ⟨"1", "generateHologram", { prompt := some "city" }⟩).1
        ⟨"2", "analyzeSurroundings", {}⟩).1.isAnalyzing = true) ∧
    ((handleToolCall
        (handleToolCall ⟨none, none, false⟩
          ⟨"1", "generateHologram", { prompt := some "city" }⟩).1
        ⟨"2", "analyzeSurroundings", {}⟩).1.generatedImage ≠ none) := by
  constructor
  · rfl
  · simp [handleToolCall]

/-- C4 (amended): startNavigation, generateHologram and stopSystem each clear
the other overlay states, and the claim's two particular sequences hold
(start-navigation after generate-hologram leaves the generated image null;
stop-system clears all three).  But analyzeSurroundings clears only the
navigation overlay and leaves a generated image in place
(`overlay_exclusion_violated`), so mutual exclusion after EVERY tool call
fails. -/
theorem overlay_exclusion_amended (st : LiveOverlayState) (i1 i2 : String)
    (a1 a2 : ToolCallArgs) :
    ((handleToolCall st ⟨i1, "startNavigation", a1⟩).1.generatedImage = none ∧
     (handleToolCall st ⟨i1, "startNavigation", a1⟩).1.isAnalyzing = false) ∧
    ((handleToolCall st ⟨i1, "generateHologram", a1⟩).1.navData = none ∧
     (handleToolCall st ⟨i1, "generateHologram", a1⟩).1.isAnalyzing = false) ∧
    (handleToolCall st ⟨i1, "stopSystem", a1⟩).1 = ⟨none, none, false⟩ ∧
    (handleToolCall st ⟨i1, "analyzeSurroundings", a1⟩).1 =
      ⟨none, st.generatedImage, true⟩ ∧
    (handleToolCall (handleToolCall st ⟨i1, "generateHologram", a1⟩).1
        ⟨i2, "startNavigation", a2⟩).1.generatedImage = none ∧
    (handleToolCall (handleToolCall st ⟨i1, "generateHologram", a1⟩).1
        ⟨i2, "stopSystem", a2⟩).1 = ⟨none, none, false⟩ :=
  ⟨⟨rfl, rfl⟩, ⟨rfl, rfl⟩, rfl, rfl, rfl, rfl⟩

/-- C5 counterexample: the sample 1.0 is NOT stored as
`trunc(1.0 * 32768) = 32768`; the `Int16Array` store wraps it to -32768
(payload bytes [0, 128] little-endian), so the claim's per-sample description
"multiplying by 32768 and truncating" fails at the right endpoint. -/
theorem capture_sample_wraps_at_one :
    createBlobBytes [(1 : ℚ)] = [0, 128] ∧
    int16OfBytes 0 128 = -32768 ∧
    ratTrunc ((1 : ℚ) * 32768) = 32768 ∧
    floatToInt16 (1 : ℚ) ≠ ratTrunc ((1 : ℚ) * 32768) := by
  refine ⟨?_, by decide, ratTrunc_one_mul, ?_⟩
  · have h1 : int16ToBytes (-32768) = [0, 128] := by decide
    simp [createBlobBytes, floatToInt16_one, h1]
  · rw [floatToInt16_one, ratTrunc_one_mul]
    decide

/-- C5 (amended): the capture pipeline emits exactly one packet per frame in
frame order, each tagged `audio/pcm;rate=16000`, whose pre-base64 byte
payload has length exactly `2 * frameLength`; each sample is stored as the
wrapped truncation `floatToInt16`, which agrees with plain truncation
`trunc(x * 32768)` for samples in [-1, 1) but wraps at exactly 1.0
(`capture_sample_wraps_at_one`). -/
theorem capture_pipeline_packets (frames : List (List ℚ)) (x : ℚ)
    (hx1 : -1 ≤ x) (hx2 : x < 1) :
    List.Forall₂ (fun frame packet =>
        packet = createBlob frame ∧
        packet.mimeType = "audio/pcm;rate=16000" ∧
        decodeB64 packet.data = some (createBlobBytes frame) ∧
        (createBlobBytes frame).length = 2 * frame.length)
      frames (capturePipeline frames) ∧
    floatToInt16 x = ratTrunc (x * 32768) := by
  constructor
  · apply forall₂_self_map
    intro f _
    exact ⟨rfl, rfl, decodeB64_encode _ (createBlobBytes_lt f), createBlobBytes_length f⟩
  · exact floatToInt16_eq x hx1 hx2

/-- Witness for `capture_pipeline_packets` on a one-frame capture at sample
1/2. -/
theorem capture_pipeline_witness :
    ((-1 : ℚ) ≤ 1/2 ∧ (1 : ℚ)/2 < 1) ∧
    (capturePipeline [[(1 : ℚ)/2]]).length = 1 ∧
    floatToInt16 ((1 : ℚ)/2) = ratTrunc ((1 : ℚ)/2 * 32768) := by
  have h1 : (-1 : ℚ) ≤ 1/2 := by norm_num
  have h2 : (1 : ℚ)/2 < 1 := by norm_num
  have h := capture_pipeline_packets [[(1 : ℚ)/2]] ((1 : ℚ)/2) h1 h2
  exact ⟨⟨h1, h2⟩, by simpa using h.1.length_eq.symm, h.2⟩

/-- C6: a fragment whose payload fails to decode is skipped without touching
the playback clock cursor: the handler returns the cursor unchanged and
schedules nothing, and a whole event sequence containing the malformed
fragment produces exactly the cursor and schedule it would have produced
without it. -/
theorem malformed_fragment_skipped (c now tbad : ℚ) (bad : List Char)
    (hbad : decodeAudioData bad = none)
    (pre post : List (ℚ × List Char)) :
    onAudioMessage c now bad = (c, none) ∧
    runAudioMessages c (pre ++ (tbad, bad) :: post) = runAudioMessages c (pre ++ post) :=
  ⟨by simp [onAudioMessage, hbad], runAudioMessages_skip c bad hbad pre post tbad⟩

/-- Witness for `malformed_fragment_skipped`: the one-character payload `*`
is not valid base64, and the handler leaves the cursor at 0. -/
theorem malformed_fragment_witness :
    decodeAudioData ['*'] = none ∧
    onAudioMessage 0 0 ['*'] = (0, none) := by
  have h : decodeAudioData ['*'] = none := by decide
  exact ⟨h, (malformed_fragment_skipped 0 0 0 ['*'] h [] []).1⟩

/-- C7 counterexample: the LiveMode microphone-frame callback guards only the
volume update with the mounted flag; the encoded frame is handed to the
session send path even after teardown, so a post-close callback still
produces a send. -/
theorem live_mode_sends_after_unmount :
    (liveModeOnAudioProcess false [(0 : ℚ)]).2 = [createAudioBlob [(0 : ℚ)]] ∧
    (liveModeOnAudioProcess false [(0 : ℚ)]).2 ≠ [] :=
  ⟨rfl, by simp [liveModeOnAudioProcess]⟩

/-- C7 (amended): teardown is idempotent and itself sends nothing, and the
EboLens callbacks check the active flag before doing anything — a frame
arriving after close neither updates the volume nor sends.  In LiveMode,
however, the frame callback checks the mounted flag only for the volume
update and still sends the encoded frame after teardown
(`live_mode_sends_after_unmount`), so the claim's "every callback checks the
active flag before touching any resource" fails. -/
theorem teardown_guard_amended (b : BridgeResources) (frame : List ℚ) :
    cleanup (cleanup b).1 = cleanup b ∧
    (cleanup b).2 = [] ∧
    (cleanup b).1.isActive = false ∧
    eboLensOnAudioProcess false frame = (false, []) ∧
    (liveModeOnAudioProcess false frame).1 = false ∧
    (liveModeOnAudioProcess false frame).2 = [createAudioBlob frame] :=
  ⟨rfl, rfl, rfl, rfl, rfl, rfl⟩

/-- C8 counterexample: a full-scale frame (all samples 1.0) has rms 1, and
the EboLens volume signal `rms * 200` evaluates to 200, outside the
documented 0-100 range. -/
theorem ebo_volume_exceeds_range :
    eboLensVolume [1] = 200 ∧ ¬ eboLensVolume [1] ≤ 100 := by
  have hs : sumSquares [1] = 1 := by simp [sumSquares]
  have h : eboLensVolume [1] = 200 := by
    simp only [eboLensVolume, rmsOf, hs]
    norm_num
  exact ⟨h, by rw [h]; norm_num⟩

/-- C8 (amended): for every non-empty frame of samples in [-1, 1], the
LiveMode volume signal `rms * 100` lies in [0, 100]; the EboLens volume
signal is `rms * 200` and is only bounded by [0, 200], exceeding 100 on loud
frames (`ebo_volume_exceeds_range`). -/
theorem volume_signal_range (frame : List ℚ) (hne : frame ≠ [])
    (hb : ∀ x ∈ frame, -1 ≤ x ∧ x ≤ 1) :
    0 ≤ liveModeVolume frame ∧ liveModeVolume frame ≤ 100 ∧
    0 ≤ eboLensVolume frame ∧ eboLensVolume frame ≤ 200 := by
  have h0 := rmsOf_nonneg frame
  have h1 := rmsOf_le_one frame hne hb
  refine ⟨?_, ?_, ?_, ?_⟩ <;> simp only [liveModeVolume, eboLensVolume] <;> nlinarith

/-- Witness for `volume_signal_range` on the frame [1/2]. -/
theorem volume_signal_witness :
    ([(1 : ℚ)/2] ≠ []) ∧
    0 ≤ liveModeVolume [(1 : ℚ)/2] ∧ liveModeVolume [(1 : ℚ)/2] ≤ 100 := by
  have hne : [(1 : ℚ)/2] ≠ [] := by simp
  have hb : ∀ x ∈ [(1 : ℚ)/2], -1 ≤ x ∧ x ≤ 1 := by
    intro x hx
    rw [List.mem_singleton] at hx
    subst hx
    norm_num
  have h := volume_signal_range [(1 : ℚ)/2] hne hb
  exact ⟨hne, h.1, h.2.1⟩

/-- C9 (code bug): the claimed precondition — record-clip starts a recording
only when none is in progress — is exactly what the `startRec` guard is
written to enforce (first conjunct: with the captured flag true the call is a
no-op), but the dispatch path invokes the first render's `startRec`, whose
captured `isRecording` is permanently false: a record_video_clip call
arriving while a recording is already running (live `isRecording` true, one
active recorder) starts a second recorder (second and third conjuncts).  The
rest of the claim matches the code: a missing duration defaults to 10
seconds via `|| 10`, and the auto-stop timer stops a still-running recorder
and offers the clip for download as `EBO_REC_<epoch-ms>.webm`. -/
theorem record_clip_guard_inert (st : LensState) (i : String) (a : ToolCallArgs)
    (d : ℚ) (now : ℕ) :
    startRec true st d = (st, none) ∧
    (handleLensToolCall
        { st with isRecording := true, hasStream := true, activeRecorders := 1 }
        ⟨i, "record_video_clip", a⟩).1.activeRecorders = 2 ∧
    (handleLensToolCall
        { st with isRecording := true, hasStream := true, activeRecorders := 1 }
        ⟨i, "record_video_clip", a⟩).1.isRecording = true ∧
    (startRec false { st with hasStream := true } (jsOrNum a.duration 10)).2 =
      some (jsOrNum a.duration 10) ∧
    jsOrNum none 10 = (10 : ℚ) ∧
    recTimerFire true { st with isRecording := true, activeRecorders := 1 } now =
      ({ st with isRecording := false, activeRecorders := 0 }, some (stopFilename now)) ∧
    stopFilename now = "EBO_REC_" ++ toString now ++ ".webm" := by
  refine ⟨?_, ?_, ?_, ?_, rfl, ?_, rfl⟩
  · simp [startRec]
  · simp [handleLensToolCall, startRec]
  · simp [handleLensToolCall, startRec]
  · simp [startRec]
  · simp [recTimerFire]

/-- C10: startNavigation always sets the navigation overlay with
`eta = "5 min"` regardless of the call's arguments, the destination taken
verbatim, and `direction` / `distance` filled through JavaScript `||`
defaulting, which replaces a missing or empty direction by STRAIGHT and a
missing or empty distance by the placeholder. -/
theorem start_navigation_defaults (st : LiveOverlayState) (i : String)
    (a : ToolCallArgs) (s : String) :
    (handleToolCall st ⟨i, "startNavigation", a⟩).1.navData =
      some { isActive := true, destination := a.destination,
             direction := jsOrString a.direction "STRAIGHT",
             distance := jsOrString a.estimatedDistance "...",
             eta := "5 min" } ∧
    jsOrString none s = s ∧
    jsOrString (some "") s = s := by
  refine ⟨?_, rfl, rfl⟩
  simp [handleToolCall]
